import Mathlib

/-!
Shallow embedding of the root controller of the daily.co Next.js demo
(RootScreen in the unnamed root-screen source file, plus HomeScreen and the
page component).  The controller owns four pieces of React state
(appState, roomUrl, callObject, apiError); every operation is modelled as a
trace of primitive actions (state setters and vendor-SDK calls), run over a
controller state by a fold.  Vendor behaviour (the meeting state reported by
the call object, the outcome of the room-creation request, the room URL
encoded in the page address) is an external input to each step.
-/

namespace DailyDemo

/-- The seven application states from modules/constants:
STATE_IDLE, STATE_CREATING, STATE_HAIRCHECK, STATE_JOINING, STATE_JOINED,
STATE_LEAVING, STATE_ERROR. -/
inductive AppState
  | idle
  | creating
  | haircheck
  | joining
  | joined
  | leaving
  | error
  deriving DecidableEq, Repr

/-- The vendor SDK's own meeting-state enumeration, as returned by the call
object's meetingState() accessor.  The root controller's switch handles
joined-meeting, left-meeting and error; everything else falls to default. -/
inductive MeetingState
  | new
  | loading
  | loaded
  | joiningMeeting
  | joinedMeeting
  | leftMeeting
  | error
  deriving DecidableEq, Repr

/-- The four vendor events the controller subscribes to. -/
inductive DailyEvent
  | joinedMeeting
  | leftMeeting
  | error
  | cameraError
  deriving DecidableEq, Repr

/-- An opaque handle to a vendor call object; the id distinguishes the
successive objects produced by DailyIframe.createCallObject(). -/
structure CallObject where
  id : Nat
  deriving DecidableEq, Repr

/-- The root controller's React state: appState, roomUrl, callObject,
apiError, plus a supply of fresh ids for call-object handles. -/
structure RootState where
  appState : AppState
  roomUrl : Option String
  callObject : Option CallObject
  apiError : Bool
  nextId : Nat
  deriving DecidableEq, Repr

/-- Primitive actions a controller operation performs, in order: the four
React state setters, and the vendor-SDK / API calls it issues. -/
inductive Action
  | setAppState (a : AppState)
  | setRoomUrl (u : Option String)
  | setCallObject (c : Option CallObject)
  | setApiError (b : Bool)
  | bumpNext
  | sdkDestroy
  | sdkLeave
  | sdkJoin (url : String)
  | sdkPreAuth (url : Option String)
  | sdkStartCamera
  deriving DecidableEq, Repr

/-- Effect of one action on the controller state.  SDK calls do not touch
the controller's own state. -/
def applyAction (s : RootState) : Action → RootState
  | .setAppState a => { s with appState := a }
  | .setRoomUrl u => { s with roomUrl := u }
  | .setCallObject c => { s with callObject := c }
  | .setApiError b => { s with apiError := b }
  | .bumpNext => { s with nextId := s.nextId + 1 }
  | .sdkDestroy => s
  | .sdkLeave => s
  | .sdkJoin _ => s
  | .sdkPreAuth _ => s
  | .sdkStartCamera => s

/-- Run a trace of actions over a controller state. -/
def runActions (t : List Action) (s : RootState) : RootState :=
  t.foldl applyAction s

/-- JavaScript truthiness of a nullable string: null and the empty string
are falsy. -/
def strTruthy : Option String → Bool
  | none => false
  | some u => u != ""

/-- createCall: setAppState(STATE_CREATING), then api.createRoom(); on
rejection the catch logs, clears roomUrl, returns to idle and sets the
error flag.  The outcome of the request is the external input. -/
def createCallTrace : Except Unit String → List Action
  | .ok _ => [.setAppState .creating]
  | .error _ =>
      [.setAppState .creating, .setRoomUrl none, .setAppState .idle,
       .setApiError true]

/-- The value the promise returned by createCall fulfills with: room.url on
success, undefined (the catch handler's implicit return) on failure.  The
catch swallows the rejection, so the result is total. -/
def createCallResult : Except Unit String → Option String
  | .ok url => some url
  | .error _ => none

/-- startHairCheck(url): create a fresh call object, set roomUrl and
callObject, enter the hair-check state, then preAuth and startCamera.
HomeScreen calls it with the createCall result, which may be undefined. -/
def startHairCheckTrace (url : Option String) (c : CallObject) : List Action :=
  [.bumpNext, .setRoomUrl url, .setCallObject (some c),
   .setAppState .haircheck, .sdkPreAuth url, .sdkStartCamera]

/-- joinCall: if (callObject && roomUrl) callObject.join({url: roomUrl}). -/
def joinCall (s : RootState) : List Action :=
  match s.callObject, s.roomUrl with
  | some _, some url => if url != "" then [.sdkJoin url] else []
  | _, _ => []

/-- startLeavingCall: returns early on a null call object; in the error
state it destroys the call object directly and then clears roomUrl,
callObject and returns to idle; otherwise it enters the leaving state and
calls leave(). -/
def startLeavingCall (s : RootState) : List Action :=
  match s.callObject with
  | none => []
  | some _ =>
      if s.appState = AppState.error then
        [.sdkDestroy, .setRoomUrl none, .setCallObject none,
         .setAppState .idle]
      else
        [.setAppState .leaving, .sdkLeave]

/-- handleNewMeetingState: guarded on a non-null call object, it switches
on callObject.meetingState() (the external input ms): joined-meeting sets
joined; left-meeting destroys the call object and then clears roomUrl,
callObject and returns to idle; error sets the error state; every other
meeting state falls through the default branch with no effect. -/
def handleNewMeetingState (s : RootState) (ms : MeetingState) : List Action :=
  match s.callObject with
  | none => []
  | some _ =>
      match ms with
      | .joinedMeeting => [.setAppState .joined]
      | .leftMeeting =>
          [.sdkDestroy, .setRoomUrl none, .setCallObject none,
           .setAppState .idle]
      | .error => [.setAppState .error]
      | _ => []

/-- Mount effect: const url = roomUrlFromPageUrl(); if (url)
startHairCheck(url).  roomUrlFromPageUrl lives in modules/utils, which is
not part of the sources here; its result (the room URL encoded in the page
address, or null) is therefore the external input pageRoom. -/
def mountEffectTrace (pageRoom : Option String) (c : CallObject) : List Action :=
  if strTruthy pageRoom then startHairCheckTrace pageRoom c else []

/-- roomUrl effect: compute pageUrlFromRoomUrl(roomUrl); if it equals
window.location.href do nothing, otherwise history.replaceState to it.
pageUrlFromRoomUrl (modules/utils) is abstracted as the pure function f;
the result is the replaceState target, or none when history is untouched. -/
def roomUrlEffect (f : Option String → String) (href : String)
    (roomUrl : Option String) : Option String :=
  if f roomUrl = href then none else some (f roomUrl)

/-- Subscription bookkeeping: on(event, handler) / off(event, handler). -/
inductive SubAction
  | on (e : DailyEvent)
  | off (e : DailyEvent)
  deriving DecidableEq, Repr

/-- The event list of the subscription effect. -/
def subscribedEvents : List DailyEvent :=
  [.joinedMeeting, .leftMeeting, .error, .cameraError]

/-- Subscription effect body: when a call object exists, subscribe
handleNewMeetingState to each of the four events. -/
def subscribeEffect (callObject : Option CallObject) : List SubAction :=
  match callObject with
  | some _ => subscribedEvents.map SubAction.on
  | none => []

/-- Subscription effect cleanup (run when the call object reference changes
or the controller unmounts): unsubscribe the same four events. -/
def subscribeCleanup (callObject : Option CallObject) : List SubAction :=
  match callObject with
  | some _ => subscribedEvents.map SubAction.off
  | none => []

/-- The handler attached to every subscribed event is the one function
handleNewMeetingState; it receives no event payload and reads only the
controller state and the call object's meetingState() accessor. -/
def eventHandler (_e : DailyEvent) (s : RootState) (ms : MeetingState) :
    List Action :=
  handleNewMeetingState s ms

/-- The four views renderApp can produce. -/
inductive View
  | apiErrorView
  | hairCheckView
  | callView
  | homeView
  deriving DecidableEq, Repr

/-- renderApp: the api-error view when the error flag is set; the hair
check when showHairCheck and a call object exists; the call view when
showCall (joining, joined or error, without api error) and a call object
exists; otherwise the home screen. -/
def renderApp (s : RootState) : View :=
  if s.apiError then View.apiErrorView
  else if s.appState = AppState.haircheck ∧ s.callObject.isSome then
    View.hairCheckView
  else if (s.appState = AppState.joining ∨ s.appState = AppState.joined ∨
      s.appState = AppState.error) ∧ s.callObject.isSome then
    View.callView
  else View.homeView

/-- The external stimuli the controller reacts to: the mount effect, the
home screen's start button (createCall().then(url => startHairCheck(url)),
with the request outcome as input), the join and leave callbacks, and a
vendor event firing while the call object reports meeting state ms. -/
inductive Input
  | mount (pageRoom : Option String)
  | startDemo (outcome : Except Unit String)
  | userJoin
  | userLeave
  | vendorEvent (e : DailyEvent) (ms : MeetingState)

/-- The action trace one stimulus produces from controller state s. -/
def stepTrace (s : RootState) : Input → List Action
  | .mount pageRoom => mountEffectTrace pageRoom ⟨s.nextId⟩
  | .startDemo outcome =>
      createCallTrace outcome ++
        startHairCheckTrace (createCallResult outcome) ⟨s.nextId⟩
  | .userJoin => joinCall s
  | .userLeave => startLeavingCall s
  | .vendorEvent _ ms => handleNewMeetingState s ms

/-- One controller step: run the stimulus's trace over the state. -/
def step (s : RootState) (i : Input) : RootState :=
  runActions (stepTrace s i) s

/-- The controller's initial state: useState(STATE_IDLE), null roomUrl,
null callObject, no api error. -/
def initState : RootState :=
  { appState := .idle, roomUrl := none, callObject := none,
    apiError := false, nextId := 0 }

/-- States reachable from the initial state by user actions and vendor
events. -/
inductive Reachable : RootState → Prop
  | init : Reachable initState
  | next (s : RootState) (i : Input) : Reachable s → Reachable (step s i)

/-- In trace t, every occurrence of setAppState idle is preceded by an
sdkDestroy call. -/
def destroyBeforeIdle (t : List Action) : Prop :=
  ∀ j, t.get? j = some (Action.setAppState AppState.idle) →
    ∃ k, k < j ∧ t.get? k = some Action.sdkDestroy

/-- The seven enumerated application states. -/
def enumeratedStates : List AppState :=
  [.idle, .creating, .haircheck, .joining, .joined, .leaving, .error]

/-! Sample controller states used by counterexamples and witnesses. -/

/-- A state holding a live call object in the error state. -/
def sampleErr : RootState :=
  { appState := .error, roomUrl := some "https://x.daily.co/abc",
    callObject := some ⟨0⟩, apiError := false, nextId := 1 }

/-- A state holding a live call object in the joined state. -/
def sampleJoined : RootState :=
  { appState := .joined, roomUrl := some "https://x.daily.co/abc",
    callObject := some ⟨0⟩, apiError := false, nextId := 1 }

/-- A state holding a live call object during the hair check. -/
def sampleHairCheck : RootState :=
  { appState := .haircheck, roomUrl := some "https://x.daily.co/abc",
    callObject := some ⟨0⟩, apiError := false, nextId := 1 }

/-! ## Theorems -/

/-- Claim C1: with a non-null call object, leaving from the error state
destroys the call object directly, never calls leave(), and afterwards
clears the room URL and the call object and returns to idle; leaving from
any other state sets the leaving state and calls leave() without touching
the room URL or the call object, and the clearing to idle happens only in
the left-meeting branch of handleNewMeetingState. -/
theorem startLeavingCall_spec (s : RootState) (c : CallObject)
    (h : s.callObject = some c) :
    (s.appState = AppState.error →
      startLeavingCall s =
        [Action.sdkDestroy, Action.setRoomUrl none,
         Action.setCallObject none, Action.setAppState AppState.idle] ∧
      Action.sdkLeave ∉ startLeavingCall s ∧
      (runActions (startLeavingCall s) s).roomUrl = none ∧
      (runActions (startLeavingCall s) s).callObject = none ∧
      (runActions (startLeavingCall s) s).appState = AppState.idle) ∧
    (s.appState ≠ AppState.error →
      startLeavingCall s =
        [Action.setAppState AppState.leaving, Action.sdkLeave] ∧
      Action.sdkDestroy ∉ startLeavingCall s ∧
      (runActions (startLeavingCall s) s).appState = AppState.leaving ∧
      (runActions (startLeavingCall s) s).roomUrl = s.roomUrl ∧
      (runActions (startLeavingCall s) s).callObject = s.callObject ∧
      (∀ (s2 : RootState) (c2 : CallObject), s2.callObject = some c2 →
        (runActions (handleNewMeetingState s2 MeetingState.leftMeeting) s2).roomUrl
          = none ∧
        (runActions (handleNewMeetingState s2 MeetingState.leftMeeting) s2).callObject
          = none ∧
        (runActions (handleNewMeetingState s2 MeetingState.leftMeeting) s2).appState
          = AppState.idle)) := by
  constructor
  · intro he
    simp [startLeavingCall, h, he, runActions, applyAction]
  · intro hne
    refine ⟨?_, ?_, ?_, ?_, ?_, fun s2 c2 h2 => ?_⟩
    · simp [startLeavingCall, h, hne]
    · simp [startLeavingCall, h, hne]
    · simp [startLeavingCall, h, hne, runActions, applyAction]
    · simp [startLeavingCall, h, hne, runActions, applyAction]
    · simp [startLeavingCall, h, hne, runActions, applyAction]
    · simp [handleNewMeetingState, h2, runActions, applyAction]

/-- Witness for C1: the theorem applied at a concrete error-state
controller state. -/
theorem startLeavingCall_spec_witness :
    (runActions (startLeavingCall sampleErr) sampleErr).appState
      = AppState.idle :=
  ((startLeavingCall_spec sampleErr ⟨0⟩ rfl).1 rfl).2.2.2.2

/-- Claim C10: startLeavingCall does nothing on a null call object, and
joinCall does nothing unless both the call object and the room URL are
non-null; whenever either operation issues any action at all, its call
object is non-null. -/
theorem guarded_noops_spec (s : RootState) :
    (s.callObject = none →
      startLeavingCall s = [] ∧ runActions (startLeavingCall s) s = s) ∧
    (s.callObject = none ∨ s.roomUrl = none →
      joinCall s = [] ∧ runActions (joinCall s) s = s) ∧
    (joinCall s ≠ [] → s.callObject.isSome ∧ s.roomUrl.isSome) ∧
    (startLeavingCall s ≠ [] → s.callObject.isSome) := by
  refine ⟨?_, ?_, ?_, ?_⟩
  · intro h; simp [startLeavingCall, h, runActions]
  · intro h
    rcases h with h | h
    · simp [joinCall, h, runActions]
    · cases hc : s.callObject <;> simp [joinCall, h, hc, runActions]
  · intro h
    cases hc : s.callObject <;> cases hu : s.roomUrl <;>
      simp_all [joinCall]
  · intro h
    cases hc : s.callObject <;> simp_all [startLeavingCall]

/-- Witness for C10: the theorem applied at the initial state, where both
references are null. -/
theorem guarded_noops_spec_witness :
    startLeavingCall initState = [] ∧
      runActions (startLeavingCall initState) initState = initState :=
  (guarded_noops_spec initState).1 rfl

/-- Claim C3: the promise returned by createCall fulfills even on API
failure (with undefined), so the home screen's start handler goes on to
call startHairCheck with that undefined URL: after a failed room creation
the step still creates a fresh call object and enters the hair-check state
while the api error flag is set and the room URL is undefined. -/
theorem createCall_fulfills_on_failure (s : RootState) :
    createCallResult (Except.error ()) = none ∧
    (step s (Input.startDemo (Except.error ()))).appState
      = AppState.haircheck ∧
    (step s (Input.startDemo (Except.error ()))).callObject
      = some ⟨s.nextId⟩ ∧
    (step s (Input.startDemo (Except.error ()))).apiError = true ∧
    (step s (Input.startDemo (Except.error ()))).roomUrl = none := by
  refine ⟨rfl, ?_, ?_, ?_, ?_⟩ <;>
    simp [step, stepTrace, createCallTrace, createCallResult,
      startHairCheckTrace, runActions, applyAction]

/-- A state with the api error flag already set. -/
def sampleApiErr : RootState :=
  { appState := .idle, roomUrl := none, callObject := none,
    apiError := true, nextId := 0 }

/-- A single action other than setApiError false keeps a set error flag
set. -/
theorem apiError_step_action (s : RootState) (a : Action)
    (ha : a ≠ Action.setApiError false) (hs : s.apiError = true) :
    (applyAction s a).apiError = true := by
  cases a <;> simp_all [applyAction]

/-- A trace containing no setApiError false keeps a set error flag set. -/
theorem apiError_mono_trace (t : List Action) (s : RootState)
    (ht : Action.setApiError false ∉ t) (hs : s.apiError = true) :
    (runActions t s).apiError = true := by
  induction t generalizing s with
  | nil => exact hs
  | cons a rest ih =>
      simp only [List.mem_cons, not_or] at ht
      have hstep := apiError_step_action s a (fun hc => ht.1 hc.symm) hs
      simpa [runActions, List.foldl] using ih (applyAction s a) ht.2 hstep

/-- createCall never emits setApiError false. -/
theorem noFalse_createCallTrace (o : Except Unit String) :
    Action.setApiError false ∉ createCallTrace o := by
  cases o <;> simp [createCallTrace]

/-- startHairCheck never emits setApiError false. -/
theorem noFalse_startHairCheckTrace (url : Option String) (c : CallObject) :
    Action.setApiError false ∉ startHairCheckTrace url c := by
  simp [startHairCheckTrace]

/-- The mount effect never emits setApiError false. -/
theorem noFalse_mountEffectTrace (p : Option String) (c : CallObject) :
    Action.setApiError false ∉ mountEffectTrace p c := by
  unfold mountEffectTrace
  split
  · exact noFalse_startHairCheckTrace p c
  · simp

/-- joinCall never emits setApiError false. -/
theorem noFalse_joinCall (s : RootState) :
    Action.setApiError false ∉ joinCall s := by
  unfold joinCall
  cases s.callObject <;> cases s.roomUrl <;> simp

/-- startLeavingCall never emits setApiError false. -/
theorem noFalse_startLeavingCall (s : RootState) :
    Action.setApiError false ∉ startLeavingCall s := by
  unfold startLeavingCall
  cases s.callObject <;> simp
  split <;> simp

/-- handleNewMeetingState never emits setApiError false. -/
theorem noFalse_handleNewMeetingState (s : RootState) (ms : MeetingState) :
    Action.setApiError false ∉ handleNewMeetingState s ms := by
  unfold handleNewMeetingState
  cases s.callObject <;> cases ms <;> simp

/-- No step's trace ever emits setApiError false. -/
theorem noFalse_stepTrace (s : RootState) (i : Input) :
    Action.setApiError false ∉ stepTrace s i := by
  cases i with
  | mount p => exact noFalse_mountEffectTrace p ⟨s.nextId⟩
  | startDemo o =>
      simp only [stepTrace, List.mem_append, not_or]
      exact ⟨noFalse_createCallTrace o, noFalse_startHairCheckTrace _ _⟩
  | userJoin => exact noFalse_joinCall s
  | userLeave => exact noFalse_startLeavingCall s
  | vendorEvent e ms => exact noFalse_handleNewMeetingState s ms

/-- Claim C2: when the room-creation request fails, the catch handler
clears the room URL, returns the application state to idle and sets the
api error flag; and no step of the controller ever resets a set error
flag, so once set it stays set. -/
theorem createCall_failure_spec :
    (∀ s : RootState,
      (runActions (createCallTrace (Except.error ())) s).roomUrl = none ∧
      (runActions (createCallTrace (Except.error ())) s).appState
        = AppState.idle ∧
      (runActions (createCallTrace (Except.error ())) s).apiError
        = true) ∧
    (∀ (s : RootState) (i : Input), s.apiError = true →
      (step s i).apiError = true) := by
  constructor
  · intro s
    refine ⟨?_, ?_, ?_⟩ <;>
      simp [createCallTrace, runActions, applyAction]
  · intro s i hs
    exact apiError_mono_trace _ _ (noFalse_stepTrace s i) hs

/-- Witness for C2: a set error flag survives a join step. -/
theorem createCall_failure_spec_witness :
    (step sampleApiErr Input.userJoin).apiError = true :=
  createCall_failure_spec.2 sampleApiErr Input.userJoin rfl

/-- Counterexample for C4: with an active call object during the hair
check, a camera-error event whose call object still reports meeting state
loaded leaves the application state at haircheck; it does not transition
to error. -/
theorem cameraError_counterexample :
    sampleHairCheck.callObject = some ⟨0⟩ ∧
    (step sampleHairCheck
        (Input.vendorEvent DailyEvent.cameraError MeetingState.loaded)).appState
      = AppState.haircheck ∧
    (step sampleHairCheck
        (Input.vendorEvent DailyEvent.cameraError MeetingState.loaded)).appState
      ≠ AppState.error := by
  refine ⟨rfl, ?_, ?_⟩ <;>
    simp [step, stepTrace, handleNewMeetingState, sampleHairCheck,
      runActions]

/-- Claim C4 (amended): when a camera-error event fires with an active
call object, the handler recomputes the application state from the call
object's meetingState() accessor, not from the event: the state becomes
error exactly when meetingState() reports error; when meetingState()
reports anything outside joined-meeting, left-meeting and error, the step
changes nothing. -/
theorem cameraError_meetingState_spec (s : RootState) (c : CallObject)
    (ms : MeetingState) (h : s.callObject = some c) :
    (ms = MeetingState.error →
      (step s (Input.vendorEvent DailyEvent.cameraError ms)).appState
        = AppState.error) ∧
    (ms ≠ MeetingState.error → ms ≠ MeetingState.joinedMeeting →
      ms ≠ MeetingState.leftMeeting →
      step s (Input.vendorEvent DailyEvent.cameraError ms) = s) := by
  constructor
  · intro hm
    subst hm
    simp [step, stepTrace, handleNewMeetingState, h, runActions,
      applyAction]
  · intro h1 h2 h3
    cases ms <;>
      simp_all [step, stepTrace, handleNewMeetingState, h, runActions]

/-- Witness for C4's amended theorem: a camera-error event whose call
object reports meeting state error does move the state to error. -/
theorem cameraError_meetingState_spec_witness :
    (step sampleJoined
        (Input.vendorEvent DailyEvent.cameraError MeetingState.error)).appState
      = AppState.error :=
  (cameraError_meetingState_spec sampleJoined ⟨0⟩ MeetingState.error rfl).1
    rfl

/-- Counterexample for C5: the application state is initialized to idle
and the home screen is the rendered view for that initial state, before
the mount effect moves a deep-linked page to haircheck; so the state does
take the idle value before hair-check is reached. -/
theorem mount_idle_counterexample :
    initState.appState = AppState.idle ∧
    renderApp initState = View.homeView ∧
    (step initState
        (Input.mount (some "https://x.daily.co/abc"))).appState
      = AppState.haircheck := by
  refine ⟨rfl, by decide, by decide⟩

/-- Claim C5 (amended): if the page address encodes a non-empty room URL,
the mount effect starts the hair check for it with no user action: the
state becomes haircheck, the room URL is stored and a fresh call object is
created; however the state is initialized to idle and holds idle (with
the home screen as the rendered view) until the mount effect runs. -/
theorem mount_starts_haircheck (url : String) (h : url ≠ "") :
    (step initState (Input.mount (some url))).appState
      = AppState.haircheck ∧
    (step initState (Input.mount (some url))).roomUrl = some url ∧
    (step initState (Input.mount (some url))).callObject = some ⟨0⟩ ∧
    initState.appState = AppState.idle ∧
    renderApp initState = View.homeView := by
  have ht : strTruthy (some url) = true := by
    simp [strTruthy, h]
  refine ⟨?_, ?_, ?_, rfl, by decide⟩ <;>
    simp [step, stepTrace, mountEffectTrace, ht, startHairCheckTrace,
      runActions, applyAction, initState]

/-- Witness for C5's amended theorem at a concrete room URL. -/
theorem mount_starts_haircheck_witness :
    (step initState
        (Input.mount (some "https://x.daily.co/abc"))).roomUrl
      = some "https://x.daily.co/abc" :=
  (mount_starts_haircheck "https://x.daily.co/abc" (by decide)).2.1

/-- The cleanup trace (destroy, then clear roomUrl and callObject, then
idle) destroys before it sets idle. -/
theorem destroyBeforeIdle_cleanup :
    destroyBeforeIdle
      [Action.sdkDestroy, Action.setRoomUrl none, Action.setCallObject none,
       Action.setAppState AppState.idle] := by
  intro j hj
  match j with
  | 0 => simp [List.get?] at hj
  | 1 => simp [List.get?] at hj
  | 2 => simp [List.get?] at hj
  | 3 => exact ⟨0, by omega, rfl⟩
  | n + 4 => simp [List.get?] at hj

/-- A join step never changes the controller state. -/
theorem step_userJoin_eq (s : RootState) : step s Input.userJoin = s := by
  rcases s with ⟨a, u, co, e, n⟩
  cases co <;> cases u <;>
    simp [step, stepTrace, joinCall, runActions, applyAction]
  split <;> simp [runActions, applyAction]

/-- Claim C6: when left-meeting is handled with a non-null call object,
the trace destroys the call object strictly before it sets the idle
state, and the same cleanup clears the room URL and the call object
reference; globally, every step that moves the application state from a
non-idle value to idle destroys the call object before setting idle. -/
theorem leftMeeting_cleanup_spec :
    (∀ (s : RootState) (c : CallObject), s.callObject = some c →
      handleNewMeetingState s MeetingState.leftMeeting =
        [Action.sdkDestroy, Action.setRoomUrl none, Action.setCallObject none,
         Action.setAppState AppState.idle] ∧
      destroyBeforeIdle (handleNewMeetingState s MeetingState.leftMeeting) ∧
      (runActions (handleNewMeetingState s MeetingState.leftMeeting) s).roomUrl
        = none ∧
      (runActions (handleNewMeetingState s MeetingState.leftMeeting) s).callObject
        = none ∧
      (runActions (handleNewMeetingState s MeetingState.leftMeeting) s).appState
        = AppState.idle) ∧
    (∀ (s : RootState) (i : Input), s.appState ≠ AppState.idle →
      (step s i).appState = AppState.idle →
      destroyBeforeIdle (stepTrace s i)) := by
  constructor
  · intro s c h
    have ht : handleNewMeetingState s MeetingState.leftMeeting =
        [Action.sdkDestroy, Action.setRoomUrl none, Action.setCallObject none,
         Action.setAppState AppState.idle] := by
      simp [handleNewMeetingState, h]
    refine ⟨ht, ht ▸ destroyBeforeIdle_cleanup, ?_, ?_, ?_⟩ <;>
      simp [ht, runActions, applyAction]
  · intro s i h1 h2
    cases i with
    | mount p =>
        by_cases hp : strTruthy p = true
        · exfalso
          simp [step, stepTrace, mountEffectTrace, hp, startHairCheckTrace,
            runActions, applyAction] at h2
        · exfalso
          simp [step, stepTrace, mountEffectTrace, hp, runActions] at h2
          exact h1 h2
    | startDemo o =>
        exfalso
        cases o <;>
          simp [step, stepTrace, createCallTrace, createCallResult,
            startHairCheckTrace, runActions, applyAction] at h2
    | userJoin =>
        exact absurd (step_userJoin_eq s ▸ h2) h1
    | userLeave =>
        cases hc : s.callObject with
        | none =>
            exfalso
            simp [step, stepTrace, startLeavingCall, hc, runActions] at h2
            exact h1 h2
        | some c =>
            by_cases he : s.appState = AppState.error
            · have ht : stepTrace s Input.userLeave =
                  [Action.sdkDestroy, Action.setRoomUrl none,
                   Action.setCallObject none,
                   Action.setAppState AppState.idle] := by
                simp [stepTrace, startLeavingCall, hc, he]
              exact ht ▸ destroyBeforeIdle_cleanup
            · exfalso
              simp [step, stepTrace, startLeavingCall, hc, he, runActions,
                applyAction] at h2
    | vendorEvent e ms =>
        cases hc : s.callObject with
        | none =>
            exfalso
            simp [step, stepTrace, handleNewMeetingState, hc,
              runActions] at h2
            exact h1 h2
        | some c =>
            cases ms with
            | leftMeeting =>
                have ht : stepTrace s (Input.vendorEvent e MeetingState.leftMeeting) =
                    [Action.sdkDestroy, Action.setRoomUrl none,
                     Action.setCallObject none,
                     Action.setAppState AppState.idle] := by
                  simp [stepTrace, handleNewMeetingState, hc]
                exact ht ▸ destroyBeforeIdle_cleanup
            | joinedMeeting =>
                exfalso
                simp [step, stepTrace, handleNewMeetingState, hc,
                  runActions, applyAction] at h2
            | error =>
                exfalso
                simp [step, stepTrace, handleNewMeetingState, hc,
                  runActions, applyAction] at h2
            | new =>
                exfalso
                simp [step, stepTrace, handleNewMeetingState, hc,
                  runActions] at h2
                exact h1 h2
            | loading =>
                exfalso
                simp [step, stepTrace, handleNewMeetingState, hc,
                  runActions] at h2
                exact h1 h2
            | loaded =>
                exfalso
                simp [step, stepTrace, handleNewMeetingState, hc,
                  runActions] at h2
                exact h1 h2
            | joiningMeeting =>
                exfalso
                simp [step, stepTrace, handleNewMeetingState, hc,
                  runActions] at h2
                exact h1 h2

/-- Witness for C6: the left-meeting cleanup trace at a concrete joined
state. -/
theorem leftMeeting_cleanup_spec_witness :
    (runActions (handleNewMeetingState sampleJoined MeetingState.leftMeeting)
        sampleJoined).appState = AppState.idle :=
  (leftMeeting_cleanup_spec.1 sampleJoined ⟨0⟩ rfl).2.2.2.2

/-- Claim C7: with a call object present the controller subscribes the
shared handler to exactly joined-meeting, left-meeting, error and
camera-error, the cleanup removes exactly those four subscriptions, and
the handler attached to every event is the same function, computing the
new state from the controller state and the meetingState() accessor and
ignoring which event fired. -/
theorem subscription_spec :
    (∀ c : CallObject,
      subscribeEffect (some c) =
        [SubAction.on DailyEvent.joinedMeeting,
         SubAction.on DailyEvent.leftMeeting,
         SubAction.on DailyEvent.error,
         SubAction.on DailyEvent.cameraError] ∧
      subscribeCleanup (some c) =
        [SubAction.off DailyEvent.joinedMeeting,
         SubAction.off DailyEvent.leftMeeting,
         SubAction.off DailyEvent.error,
         SubAction.off DailyEvent.cameraError]) ∧
    (∀ (e1 e2 : DailyEvent) (s : RootState) (ms : MeetingState),
      eventHandler e1 s ms = eventHandler e2 s ms) ∧
    (∀ (e : DailyEvent) (s : RootState) (ms : MeetingState),
      eventHandler e s ms = handleNewMeetingState s ms) ∧
    subscribeEffect none = [] ∧ subscribeCleanup none = [] :=
  ⟨fun _ => ⟨rfl, rfl⟩, fun _ _ _ _ => rfl, fun _ _ _ => rfl, rfl, rfl⟩

/-- Claim C8: in every reachable controller state the application state is
one of the seven enumerated values idle, creating, hair-check, joining,
joined, leaving, error. -/
theorem appState_always_enumerated (s : RootState) (_h : Reachable s) :
    s.appState ∈ enumeratedStates := by
  cases s.appState <;> simp [enumeratedStates]

/-- Witness for C8 at the (reachable) initial state. -/
theorem appState_always_enumerated_witness :
    initState.appState ∈ enumeratedStates :=
  appState_always_enumerated initState Reachable.init

/-- Claim C9: the roomUrl effect rewrites the page address to the page
URL computed from the room URL exactly when that computed URL differs
from the current address, and leaves history untouched when they are
equal. -/
theorem roomUrl_effect_spec (f : Option String → String) (href : String)
    (u : Option String) :
    (roomUrlEffect f href u = none ↔ f u = href) ∧
    (∀ p, roomUrlEffect f href u = some p → p = f u ∧ p ≠ href) := by
  constructor
  · unfold roomUrlEffect
    split <;> simp_all
  · intro p hp
    unfold roomUrlEffect at hp
    split at hp <;> simp_all

/-- Witness for C9: a room URL whose computed page URL already equals the
current address leaves history untouched. -/
theorem roomUrl_effect_spec_witness :
    roomUrlEffect (fun _ => "https://page/") "https://page/" none = none :=
  (roomUrl_effect_spec (fun _ => "https://page/") "https://page/" none).1.mpr
    rfl

end DailyDemo
